import Mathlib

/-!
Shallow embedding of src/app.js (nfmirror-cookies).

The embedded core is: the request-header cookie parser (page.on request),
the Set-Cookie response parser (page.on response), the cookie-store snapshot
merge (capturePageCookies), the shared accumulator (the JavaScript Map
requestCookies, modelled as an insertion-ordered association list), and the
report builder at the end of captureCookies.

JavaScript library functions that the source calls are modelled as parameters
collected in JsEnv: Date parsing and formatting, and parseInt.
new Date(s).toISOString() is modelled as an Option-valued parse, where none
stands for the RangeError thrown on an invalid date (which the source catches
per cookie).  String.prototype.split with a one-character separator,
String.prototype.trim and substring are implemented over the character list of
the string so that all definitions evaluate by the kernel.
-/

namespace NfMirror

/-- JS s.split(c) for a one-character separator: keeps empty segments and
maps the empty string to a single empty segment. -/
def splitOnChar (c : Char) : List Char → List (List Char)
  | [] => [[]]
  | x :: xs =>
    let r := splitOnChar c xs
    if x = c then [] :: r
    else
      match r with
      | [] => [[x]]
      | y :: ys => (x :: y) :: ys

/-- Drop leading and trailing whitespace from a character list (JS trim). -/
def trimChars (l : List Char) : List Char :=
  ((l.dropWhile Char.isWhitespace).reverse.dropWhile Char.isWhitespace).reverse

/-- JS s.split(c) on a String, via the character list. -/
def jsSplit (c : Char) (s : String) : List String :=
  (splitOnChar c s.data).map String.mk

/-- JS s.trim() on a String. -/
def jsTrim (s : String) : String :=
  String.mk (trimChars s.data)

/-- JS s.substring(n) for ASCII content: drop the first n characters. -/
def jsDrop (n : Nat) (s : String) : String :=
  String.mk (s.data.drop n)

/-- JS s.toLowerCase().startsWith(pre): compare pre against the lowercased
characters of s. -/
def lowerStartsWith (pre : String) (s : String) : Bool :=
  List.isPrefixOf pre.data (s.data.map Char.toLower)

/-- JS truthiness of a possibly-undefined string: undefined and the empty
string are falsy, every other string is truthy. -/
def truthyStr : Option String → Bool
  | none => false
  | some s => s ≠ ""

/-- The JavaScript library functions the source calls, as parameters.
parseDate s models new Date(s).toISOString(); none is the thrown RangeError
on an invalid date.  parseIntJs models parseInt (none = NaN).
nowPlusSeconds n models building new Date(), adding n seconds and formatting
with toISOString (lines 142 to 144 of src/app.js).  msToISO t models
new Date(t).toISOString() for a millisecond epoch number t. -/
structure JsEnv where
  parseDate : String → Option String
  parseIntJs : String → Option Int
  nowPlusSeconds : Int → String
  msToISO : Int → String

/-- One merged cookie record as stored in the requestCookies Map.  Fields a
JavaScript object may leave undefined are Option-valued. -/
structure Cookie where
  name : String
  value : Option String
  domain : String
  path : Option String
  expires : Option String
  maxAge : Option Int
  httpOnly : Option Bool
  secure : Option Bool
  sameSite : Option String
  url : String
deriving DecidableEq, Repr

/-- The requestCookies Map: an insertion-ordered association list from the
key domain|name to the record.  Keys are unique (proved below). -/
abbrev Store := List (String × Cookie)

/-- JS Map.get. -/
def mapGet : Store → String → Option Cookie
  | [], _ => none
  | p :: rest, k => if p.1 = k then some p.2 else mapGet rest k

/-- JS Map.set: replace in place when the key is present (keeping insertion
order), otherwise append at the end. -/
def mapSet : Store → String → Cookie → Store
  | [], k, v => [(k, v)]
  | p :: rest, k, v => if p.1 = k then (k, v) :: rest else p :: mapSet rest k v

/-- The store key used everywhere in the source: domain|name. -/
def cookieKey (domain name : String) : String :=
  domain ++ "|" ++ name

/-! ## Request handler (src/app.js lines 81 to 102)

Each semicolon segment of the Cookie header is trimmed and split on '=' with
destructuring [name, value]: name is segment 0, value is segment 1 or
undefined; the observation is unconditionally Map.set into the store. -/

/-- The name part of one header segment: segment.trim().split('=')[0]. -/
def segName (seg : String) : String :=
  (jsSplit '=' (jsTrim seg)).headD ""

/-- The value part of one header segment: segment.trim().split('=')[1],
undefined when the segment has no '='. -/
def segValue (seg : String) : Option String :=
  (jsSplit '=' (jsTrim seg))[1]?

/-- The observation built from one Cookie-header segment
(line 90 to 93 of src/app.js): name, value, domain, url, everything else
undefined. -/
def parseHeaderCookie (domain url seg : String) : Cookie :=
  { name := segName seg
    value := segValue seg
    domain := domain
    path := none
    expires := none
    maxAge := none
    httpOnly := none
    secure := none
    sameSite := none
    url := url }

/-- The page.on request handler for one request whose Cookie header is
header (an absent header is modelled as the empty string, which is falsy in
the source's guard).  Every segment is Map.set, none is dropped. -/
def onRequest (domain url header : String) (store : Store) : Store :=
  if header = "" then store
  else
    ((jsSplit ';' header).map (parseHeaderCookie domain url)).foldl
      (fun st c => mapSet st (cookieKey c.domain c.name) c) store

/-! ## Response handler (src/app.js lines 105 to 178)

One Set-Cookie header is split on ';'.  The first segment gives name=value;
an empty name skips the cookie.  The remaining segments are scanned for
expires= and max-age=.  An invalid expires date makes toISOString throw,
which the per-cookie catch turns into skipping the whole cookie. -/

/-- The attribute loop of lines 132 to 148: fold the attribute segments,
threading (expires, maxAge).  Returns none when toISOString throws on an
invalid expires date. -/
def parseAttrs (env : JsEnv) :
    List String → Option String → Option Int → Option (Option String × Option Int)
  | [], expires, maxAge => some (expires, maxAge)
  | part :: rest, expires, maxAge =>
    let p := jsTrim part
    if lowerStartsWith "expires=" p then
      match env.parseDate (jsDrop 8 p) with
      | none => none
      | some iso => parseAttrs env rest (some iso) maxAge
    else if lowerStartsWith "max-age=" p then
      match env.parseIntJs (jsDrop 8 p) with
      | none => parseAttrs env rest expires maxAge
      | some n =>
        parseAttrs env rest
          (if truthyStr expires then expires else some (env.nowPlusSeconds n))
          (some n)
    else parseAttrs env rest expires maxAge

/-- Processing one Set-Cookie header string for a response from domain/url
(lines 119 to 169).  An existing record at the key gets its expires and
maxAge fields overwritten with the parsed values (defined or not); an absent
key gets a fresh record with only name, value, domain, url, expires, maxAge. -/
def onSetCookie (env : JsEnv) (domain url header : String) (store : Store) : Store :=
  let cookieParts := jsSplit ';' header
  let nv := jsSplit '=' (jsTrim (cookieParts.headD ""))
  let name := nv.headD ""
  if name = "" then store
  else
    match parseAttrs env (cookieParts.drop 1) none none with
    | none => store
    | some (expires, maxAge) =>
      let key := cookieKey domain name
      match mapGet store key with
      | some existing =>
        mapSet store key { existing with expires := expires, maxAge := maxAge }
      | none =>
        mapSet store key
          { name := name
            value := nv[1]?
            domain := domain
            path := none
            expires := expires
            maxAge := maxAge
            httpOnly := none
            secure := none
            sameSite := none
            url := url }

/-! ## Snapshot merge (capturePageCookies, src/app.js lines 39 to 78) -/

/-- One native cookie as reported by Network.getAllCookies: all fields
present; expires is an epoch-seconds number where 0 is falsy (the browser
reports -1 for session cookies). -/
structure SnapCookie where
  name : String
  value : String
  domain : String
  path : String
  expires : Int
  httpOnly : Bool
  secure : Bool
  sameSite : String
deriving DecidableEq, Repr

/-- The url the snapshot handler reconstructs from the cookie domain
(lines 49 to 51). -/
def snapUrl (c : SnapCookie) : String :=
  if c.domain.startsWith "." then "https://" ++ (c.domain.drop 1)
  else "https://" ++ c.domain

/-- The record the snapshot handler builds (lines 58 to 68): every field
comes from the native cookie; a falsy (zero) expires becomes undefined,
otherwise new Date(expires * 1000).toISOString(). -/
def snapRecord (env : JsEnv) (c : SnapCookie) : Cookie :=
  { name := c.name
    value := some c.value
    domain := c.domain
    path := some c.path
    expires := if c.expires = 0 then none else some (env.msToISO (c.expires * 1000))
    maxAge := none
    httpOnly := some c.httpOnly
    secure := some c.secure
    sameSite := some c.sameSite
    url := snapUrl c }

/-- Merging one snapshot cookie (lines 47 to 73): the record is Map.set only
when the key is absent or the existing record's expires is falsy; otherwise
the store is left untouched. -/
def mergeSnapshotCookie (env : JsEnv) (store : Store) (c : SnapCookie) : Store :=
  let key := cookieKey c.domain c.name
  match mapGet store key with
  | none => mapSet store key (snapRecord env c)
  | some existing =>
    if truthyStr existing.expires then store
    else mapSet store key (snapRecord env c)

/-! ## Runs: the interleaving of the three observation sources -/

/-- One observation event of a capture run: a request carrying a Cookie
header, a response carrying a list of Set-Cookie headers, or a cookie-store
snapshot checkpoint. -/
inductive Event where
  | request (domain url header : String)
  | response (domain url : String) (setCookieHeaders : List String)
  | snapshot (cookies : List SnapCookie)

/-- Apply one event to the store. -/
def step (env : JsEnv) (store : Store) : Event → Store
  | .request d u h => onRequest d u h store
  | .response d u hs => hs.foldl (fun st h => onSetCookie env d u h st) store
  | .snapshot cs => cs.foldl (mergeSnapshotCookie env) store

/-- A whole capture run: fold the events over the initially empty Map. -/
def run (env : JsEnv) (events : List Event) : Store :=
  events.foldl (step env) []

/-! ## Report builder (src/app.js lines 220 to 247) -/

/-- The sentinel the grouped view shows for a falsy expires. -/
def sessionSentinel : String := "Session cookie (no expiration)"

/-- One entry of cookiesByDomain (lines 229 to 237). -/
structure GroupedCookie where
  name : String
  value : Option String
  expires : String
  path : Option String
  httpOnly : Option Bool
  secure : Option Bool
  sameSite : Option String
deriving DecidableEq, Repr

/-- The projection pushed into cookiesByDomain, with
expires: cookie.expires || sentinel (JS truthiness: undefined and the empty
string both give the sentinel). -/
def groupEntry (c : Cookie) : GroupedCookie :=
  { name := c.name
    value := c.value
    expires := match c.expires with
      | some e => if e = "" then sessionSentinel else e
      | none => sessionSentinel
    path := c.path
    httpOnly := c.httpOnly
    secure := c.secure
    sameSite := c.sameSite }

/-- Adding one cookie to the cookiesByDomain accumulator: push onto the
existing domain bucket, or start a new one at the end. -/
def addByDomain (acc : List (String × List GroupedCookie)) (c : Cookie) :
    List (String × List GroupedCookie) :=
  if acc.any (fun p => p.1 = c.domain) then
    acc.map (fun p => if p.1 = c.domain then (p.1, p.2 ++ [groupEntry c]) else p)
  else acc ++ [(c.domain, [groupEntry c])]

/-- cookiesByDomain built from the flat cookie array (lines 224 to 238). -/
def cookiesByDomain (arr : List Cookie) : List (String × List GroupedCookie) :=
  arr.foldl addByDomain []

/-- The persisted result object (lines 241 to 247). -/
structure Report where
  url : String
  captureDate : String
  totalCookies : Nat
  byDomain : List (String × List GroupedCookie)
  allCookies : List Cookie

/-- Building the report from the final store: the flat array is the Map's
values in insertion order; totalCookies is its length. -/
def buildReport (url captureDate : String) (store : Store) : Report :=
  let cookiesArray := store.map Prod.snd
  { url := url
    captureDate := captureDate
    totalCookies := cookiesArray.length
    byDomain := cookiesByDomain cookiesArray
    allCookies := cookiesArray }

/-! ## Concrete JavaScript environments used by counterexamples and witnesses -/

/-- A concrete JsEnv whose date parser fails on every string (every Expires
value is an invalid date) and whose parseInt succeeds exactly on "3600". -/
def envC : JsEnv :=
  { parseDate := fun _ => none
    parseIntJs := fun s => if s = "3600" then some 3600 else none
    nowPlusSeconds := fun n => "NOW+" ++ toString n
    msToISO := fun t => "MS:" ++ toString t }

/-- A concrete JsEnv that parses one fixed Expires date and "3600". -/
def envD : JsEnv :=
  { parseDate := fun s =>
      if s = "Wed, 01 Jan 2025 00:00:00 GMT" then some "2025-01-01T00:00:00.000Z" else none
    parseIntJs := fun s => if s = "3600" then some 3600 else none
    nowPlusSeconds := fun n => "NOW+" ++ toString n
    msToISO := fun t => "MS:" ++ toString t }

/-! ## Basic facts about the Map model -/

theorem mapGet_mapSet_self (st : Store) (k : String) (v : Cookie) :
    mapGet (mapSet st k v) k = some v := by
  induction st with
  | nil => simp [mapSet, mapGet]
  | cons p rest ih =>
    by_cases h : p.1 = k
    · simp [mapSet, mapGet, h]
    · simp [mapSet, mapGet, h, ih]

theorem mapGet_mapSet_ne (st : Store) (k k' : String) (v : Cookie) (h : k ≠ k') :
    mapGet (mapSet st k' v) k = mapGet st k := by
  have h' : ¬ k' = k := fun hh => h hh.symm
  induction st with
  | nil => simp [mapSet, mapGet, h']
  | cons p rest ih =>
    by_cases hp : p.1 = k'
    · have hpk : ¬ p.1 = k := by rw [hp]; exact h'
      simp [mapSet, mapGet, hp, h', hpk]
    · simp only [mapSet, if_neg hp]
      by_cases hk : p.1 = k
      · simp [mapGet, hk]
      · simp [mapGet, hk, ih]

theorem mapGet_mapSet_isSome (st : Store) (k k' : String) (v : Cookie)
    (h : (mapGet st k).isSome) : (mapGet (mapSet st k' v) k).isSome := by
  by_cases hkk : k = k'
  · subst hkk; rw [mapGet_mapSet_self]; rfl
  · rw [mapGet_mapSet_ne st k k' v hkk]; exact h

/-! ## C3: a snapshot never overwrites a defined expiry -/

/-- C3: for every key whose record already carries a defined expiry (every
expiry the program stores is a nonempty ISO string, hence truthy), merging
any snapshot observation for that key leaves the store entirely unchanged:
first-writer-wins for expiry under snapshot merges. -/
theorem c3_snapshot_never_overwrites_defined_expiry (env : JsEnv) (store : Store)
    (c : SnapCookie) (r : Cookie) (e : String)
    (hget : mapGet store (cookieKey c.domain c.name) = some r)
    (hexp : r.expires = some e) (he : e ≠ "") :
    mergeSnapshotCookie env store c = store := by
  unfold mergeSnapshotCookie
  simp [hget, truthyStr, hexp, he]

/-- The existing record used to exercise c3: a cookie whose expiry an earlier
Set-Cookie observation defined. -/
def cookieC3 : Cookie :=
  { name := "a"
    value := some "v"
    domain := "x.com"
    path := none
    expires := some "2025-01-01T00:00:00.000Z"
    maxAge := none
    httpOnly := none
    secure := none
    sameSite := none
    url := "u" }

/-- A store holding cookieC3 under its key. -/
def storeC3 : Store := [(cookieKey "x.com" "a", cookieC3)]

/-- A snapshot observation for the same key, reporting a session cookie. -/
def snapC3 : SnapCookie :=
  { name := "a"
    value := "sv"
    domain := "x.com"
    path := "/"
    expires := 0
    httpOnly := false
    secure := false
    sameSite := "Lax" }

theorem c3_witness : mergeSnapshotCookie envC storeC3 snapC3 = storeC3 :=
  c3_snapshot_never_overwrites_defined_expiry envC storeC3 snapC3 cookieC3
    "2025-01-01T00:00:00.000Z" (by decide) (by decide) (by decide)

/-! ## C5: the request-header segment split -/

/-- C5 counterexample: for the segment a=b=c the source splits on every '='
and destructures the first two components, so the observed value is "b",
not the remainder "b=c" after the first '='. -/
theorem c5_counterexample :
    (parseHeaderCookie "d" "u" "a=b=c").value = some "b"
    ∧ (parseHeaderCookie "d" "u" "a=b=c").value ≠ some "b=c" := by decide

/-- C5 amended: a segment is split on every '='; for a segment whose text
splits into [n, v1, v2], the observation's value is v1 alone (the part
between the first and second '='), and v1 differs from the remainder
v1=v2 after the first '='. -/
theorem c5_value_is_second_component (d u seg n v1 v2 : String)
    (hsplit : jsSplit '=' (jsTrim seg) = [n, v1, v2]) :
    (parseHeaderCookie d u seg).value = some v1 ∧ v1 ≠ v1 ++ "=" ++ v2 := by
  constructor
  · show segValue seg = some v1
    unfold segValue
    rw [hsplit]
    rfl
  · intro hcontra
    have hlen := congrArg String.length hcontra
    rw [String.length_append, String.length_append] at hlen
    have h1 : ("=" : String).length = 1 := by decide
    rw [h1] at hlen
    omega

theorem c5_witness :
    (parseHeaderCookie "d" "u" "x=y=z").value = some "y" ∧ "y" ≠ "y" ++ "=" ++ "z" :=
  c5_value_is_second_component "d" "u" "x=y=z" "x" "y" "z" (by decide)

/-! ## C10: negative native expires values are truthy -/

/-- C10: only a native expires of exactly 0 (or an absent one, equally falsy)
maps to "no expiration"; a negative expires such as the -1 the browser
reports for session cookies is truthy, so the merged record gets a defined
expires string rendering the negative millisecond instant
expires * 1000 < 0, a timestamp before 1970, instead of a session cookie. -/
theorem c10_negative_expires_defined (env : JsEnv) (store : Store) (c : SnapCookie)
    (hget : mapGet store (cookieKey c.domain c.name) = none) :
    (c.expires < 0 →
      mapGet (mergeSnapshotCookie env store c) (cookieKey c.domain c.name)
        = some (snapRecord env c)
      ∧ (snapRecord env c).expires = some (env.msToISO (c.expires * 1000))
      ∧ c.expires * 1000 < 0)
    ∧ (c.expires = 0 → (snapRecord env c).expires = none) := by
  constructor
  · intro hneg
    have hne : c.expires ≠ 0 := by omega
    refine ⟨?_, ?_, by omega⟩
    · unfold mergeSnapshotCookie
      simp [hget, mapGet_mapSet_self]
    · simp [snapRecord, hne]
  · intro h0
    simp [snapRecord, h0]

/-- A snapshot cookie whose native expires is the browser's -1. -/
def snapC10 : SnapCookie :=
  { name := "b"
    value := "v"
    domain := "y.com"
    path := "/"
    expires := -1
    httpOnly := false
    secure := false
    sameSite := "Lax" }

theorem c10_witness :
    mapGet (mergeSnapshotCookie envC [] snapC10) (cookieKey snapC10.domain snapC10.name)
      = some (snapRecord envC snapC10)
    ∧ (snapRecord envC snapC10).expires = some (envC.msToISO (snapC10.expires * 1000))
    ∧ snapC10.expires * 1000 < 0 :=
  (c10_negative_expires_defined envC [] snapC10 (by decide)).1 (by decide)

/-! ## Counterexamples for C1, C2, C4, C7 -/

/-- C1 counterexample: merging the header observation A (no expiry) then the
Set-Cookie observation B (expiry NOW+3600) yields that expiry, but merging
B then A yields a record with no expiry at all: the request handler replaces
the stored record wholesale, erasing the defined expiry, so the merge is not
order-independent and defined fields are cleared. -/
theorem c1_counterexample :
    (mapGet (run envC [.request "d" "u2" "s=x", .response "d" "u" ["s=tok; Max-Age=3600"]])
        (cookieKey "d" "s")).map Cookie.expires = some (some "NOW+3600")
    ∧ (mapGet (run envC [.response "d" "u" ["s=tok; Max-Age=3600"], .request "d" "u2" "s=x"])
        (cookieKey "d" "s")).map Cookie.expires = some none := by decide

/-- The snapshot observation used by the c2 counterexample: key x.com|a,
session (expires 0), with its own value sv. -/
def snapC2 : SnapCookie :=
  { name := "a"
    value := "sv"
    domain := "x.com"
    path := "/"
    expires := 0
    httpOnly := false
    secure := false
    sameSite := "Lax" }

/-- C2 counterexample: after a header observation sets value hv for x.com|a,
a snapshot for the same key with expires 0 replaces the whole record, so the
merged value is the snapshot's sv, not the hv the header observation set:
the snapshot does not contribute only undefined fields. -/
theorem c2_counterexample :
    (mapGet (run envC [.request "x.com" "u" "a=hv", .snapshot [snapC2]])
        (cookieKey "x.com" "a")).map Cookie.value = some (some "sv")
    ∧ (mapGet (run envC [.request "x.com" "u" "a=hv", .snapshot [snapC2]])
        (cookieKey "x.com" "a")).map Cookie.value ≠ some (some "hv") := by decide

/-- C4 counterexample: a Cookie header segment with no '=' (here foo) and a
segment with an empty name (here =v) each yield an observation that is
inserted into the store, under key d|foo with undefined value and under key
d| with empty name; neither is dropped. -/
theorem c4_counterexample :
    (mapGet (onRequest "d" "u" "foo" []) (cookieKey "d" "foo")).isSome = true
    ∧ (onRequest "d" "u" "foo" []).length = 1
    ∧ (mapGet (onRequest "d" "u" "=v" []) (cookieKey "d" "")).isSome = true := by decide

/-- C7 counterexample: with a date parser that rejects garbage (toISOString
throws), the Set-Cookie header a=b; Expires=garbage records nothing at all:
the name a and value b are not kept, the whole cookie is skipped. -/
theorem c7_counterexample :
    onSetCookie envC "d" "u" "a=b; Expires=garbage" [] = []
    ∧ mapGet (onSetCookie envC "d" "u" "a=b; Expires=garbage" []) (cookieKey "d" "a") = none := by
  decide

/-! ## The Set-Cookie handler under a successfully parsed attribute list -/

/-- When the header splits into mainPart :: rest, the name is the nonempty n,
and the attribute loop returns (expv, mav), the record stored at domain|n
carries exactly that expires and maxAge (whether the key was new or the
existing record was updated). -/
theorem onSetCookie_parsed (env : JsEnv) (domain url s mainPart n : String)
    (rest : List String) (expv : Option String) (mav : Option Int) (store : Store)
    (hsplit : jsSplit ';' s = mainPart :: rest)
    (hname : (jsSplit '=' (jsTrim mainPart)).headD "" = n)
    (hn : n ≠ "")
    (hattrs : parseAttrs env rest none none = some (expv, mav)) :
    (mapGet (onSetCookie env domain url s store) (cookieKey domain n)).map
        (fun c => (c.expires, c.maxAge)) = some (expv, mav) := by
  unfold onSetCookie
  rw [hsplit]
  simp only [List.headD_cons, List.drop_succ_cons, List.drop_zero]
  rw [hname, if_neg hn, hattrs]
  cases hg : mapGet store (cookieKey domain n) with
  | some existing => simp [hg, mapGet_mapSet_self]
  | none => simp [hg, mapGet_mapSet_self]

/-! ## C6: Expires wins over Max-Age in either attribute order -/

/-- C6: for a Set-Cookie header whose attribute segments are an Expires
attribute with a parseable date E (a nonempty ISO string) and a Max-Age
attribute with a parseable integer A, in either order, the resulting record's
expires equals E: Expires wins; Max-Age computes now + seconds into expires
only while expires is still unset, and an Expires segment overwrites it. -/
theorem c6_expires_wins (env : JsEnv) (domain url s mainPart ep mp n E : String)
    (A : Int) (store : Store)
    (hsplit : jsSplit ';' s = [mainPart, ep, mp] ∨ jsSplit ';' s = [mainPart, mp, ep])
    (hname : (jsSplit '=' (jsTrim mainPart)).headD "" = n)
    (hn : n ≠ "")
    (hep : lowerStartsWith "expires=" (jsTrim ep) = true)
    (hdate : env.parseDate (jsDrop 8 (jsTrim ep)) = some E)
    (hE : E ≠ "")
    (hmp1 : lowerStartsWith "expires=" (jsTrim mp) = false)
    (hmp2 : lowerStartsWith "max-age=" (jsTrim mp) = true)
    (hma : env.parseIntJs (jsDrop 8 (jsTrim mp)) = some A) :
    (mapGet (onSetCookie env domain url s store) (cookieKey domain n)).map Cookie.expires
      = some (some E) := by
  have hpair : (mapGet (onSetCookie env domain url s store) (cookieKey domain n)).map
      (fun c => (c.expires, c.maxAge)) = some (some E, some A) := by
    rcases hsplit with h | h
    · have hattrs : parseAttrs env [ep, mp] none none = some (some E, some A) := by
        simp [parseAttrs, hep, hdate, hmp1, hmp2, hma, truthyStr, hE]
      exact onSetCookie_parsed env domain url s mainPart n [ep, mp]
        (some E) (some A) store h hname hn hattrs
    · have hattrs : parseAttrs env [mp, ep] none none = some (some E, some A) := by
        simp [parseAttrs, hep, hdate, hmp1, hmp2, hma, truthyStr]
      exact onSetCookie_parsed env domain url s mainPart n [mp, ep]
        (some E) (some A) store h hname hn hattrs
  cases hg : mapGet (onSetCookie env domain url s store) (cookieKey domain n) with
  | none => rw [hg] at hpair; simp at hpair
  | some c =>
    rw [hg] at hpair
    simp at hpair
    simp [hpair.1]

theorem c6_witness :
    (mapGet (onSetCookie envD "d" "u"
        "n=v; Expires=Wed, 01 Jan 2025 00:00:00 GMT; Max-Age=3600" [])
      (cookieKey "d" "n")).map Cookie.expires = some (some "2025-01-01T00:00:00.000Z") :=
  c6_expires_wins envD "d" "u" "n=v; Expires=Wed, 01 Jan 2025 00:00:00 GMT; Max-Age=3600"
    "n=v" " Expires=Wed, 01 Jan 2025 00:00:00 GMT" " Max-Age=3600" "n"
    "2025-01-01T00:00:00.000Z" 3600 [] (Or.inl (by decide)) (by decide) (by decide)
    (by decide) (by decide) (by decide) (by decide) (by decide) (by decide)

/-! ## C7 amended: unparseable Max-Age versus unparseable Expires -/

/-- C7 amended: an unparseable Max-Age is treated as absent while the cookie
itself is still recorded (its record carries no expires and no maxAge); an
unparseable Expires, however, makes toISOString throw, the per-cookie catch
drops the whole cookie with a warning and the store is left unchanged.
Neither case is fatal to the run. -/
theorem c7_unparseable_attributes (env : JsEnv) (domain url : String) (store : Store) :
    (∀ s mainPart ap n,
      jsSplit ';' s = [mainPart, ap] →
      (jsSplit '=' (jsTrim mainPart)).headD "" = n →
      n ≠ "" →
      lowerStartsWith "expires=" (jsTrim ap) = false →
      lowerStartsWith "max-age=" (jsTrim ap) = true →
      env.parseIntJs (jsDrop 8 (jsTrim ap)) = none →
      (mapGet (onSetCookie env domain url s store) (cookieKey domain n)).map
          (fun c => (c.expires, c.maxAge)) = some (none, none))
    ∧ (∀ s mainPart ap,
      jsSplit ';' s = [mainPart, ap] →
      lowerStartsWith "expires=" (jsTrim ap) = true →
      env.parseDate (jsDrop 8 (jsTrim ap)) = none →
      onSetCookie env domain url s store = store) := by
  constructor
  · intro s mainPart ap n hsplit hname hn hap1 hap2 hma
    have hattrs : parseAttrs env [ap] none none = some (none, none) := by
      simp [parseAttrs, hap1, hap2, hma]
    exact onSetCookie_parsed env domain url s mainPart n [ap] none none store
      hsplit hname hn hattrs
  · intro s mainPart ap hsplit hap hdate
    have hattrs : parseAttrs env [ap] none none = none := by
      simp [parseAttrs, hap, hdate]
    unfold onSetCookie
    rw [hsplit]
    simp only [List.headD_cons, List.drop_succ_cons, List.drop_zero]
    by_cases hz : (jsSplit '=' (jsTrim mainPart)).headD "" = ""
    · rw [if_pos hz]
    · rw [if_neg hz, hattrs]

theorem c7_witness :
    (mapGet (onSetCookie envD "d" "u" "a=b; Max-Age=oops" []) (cookieKey "d" "a")).map
        (fun c => (c.expires, c.maxAge)) = some (none, none)
    ∧ onSetCookie envD "d" "u" "a=b; Expires=oops" [] = [] :=
  ⟨(c7_unparseable_attributes envD "d" "u" []).1 "a=b; Max-Age=oops" "a=b" " Max-Age=oops"
      "a" (by decide) (by decide) (by decide) (by decide) (by decide) (by decide),
   (c7_unparseable_attributes envD "d" "u" []).2 "a=b; Expires=oops" "a=b" " Expires=oops"
      (by decide) (by decide) (by decide)⟩

/-! ## C2 amended: a snapshot replaces the whole record when expiry is falsy -/

/-- C2 amended: when the existing record at the snapshot cookie's key lacks
truthy expiration data, the snapshot observation replaces the record
entirely with the snapshot-built record: a native expires of 0 is normalized
to undefined (the record stays a session cookie), but every other field,
including value, comes from the snapshot, not from the earlier observation. -/
theorem c2_snapshot_replaces_record (env : JsEnv) (store : Store) (c : SnapCookie)
    (r : Cookie)
    (hget : mapGet store (cookieKey c.domain c.name) = some r)
    (hexp : truthyStr r.expires = false) :
    mergeSnapshotCookie env store c
      = mapSet store (cookieKey c.domain c.name) (snapRecord env c)
    ∧ (c.expires = 0 → (snapRecord env c).expires = none)
    ∧ (snapRecord env c).value = some c.value := by
  refine ⟨?_, fun h0 => by simp [snapRecord, h0], by simp [snapRecord]⟩
  unfold mergeSnapshotCookie
  simp [hget, hexp]

/-- The record an earlier header observation left at x.com|a (value hv, no
expiry). -/
def cookieC2 : Cookie := parseHeaderCookie "x.com" "u" "a=hv"

/-- A store holding cookieC2 under its key. -/
def storeC2 : Store := [(cookieKey "x.com" "a", cookieC2)]

theorem c2_witness :
    mergeSnapshotCookie envC storeC2 snapC2
      = mapSet storeC2 (cookieKey snapC2.domain snapC2.name) (snapRecord envC snapC2)
    ∧ (snapC2.expires = 0 → (snapRecord envC snapC2).expires = none)
    ∧ (snapRecord envC snapC2).value = some snapC2.value :=
  c2_snapshot_replaces_record envC storeC2 snapC2 cookieC2 (by decide) (by decide)

/-! ## C1 amended: merge order matters for expiry -/

/-- The request handler for a header that is one single segment: the parsed
observation is Map.set unconditionally, replacing whatever the store held. -/
theorem onRequest_single (domain url h seg : String) (store : Store)
    (hne : h ≠ "") (hsplit : jsSplit ';' h = [seg]) :
    onRequest domain url h store
      = mapSet store (cookieKey domain (segName seg)) (parseHeaderCookie domain url seg) := by
  unfold onRequest
  rw [if_neg hne, hsplit]
  rfl

/-- C1 amended: merging header observation A (no expiry) then Set-Cookie
observation B (Max-Age 3600) leaves expiry now + 3600s on the record, but
merging B then A leaves a record with no expiry and no maxAge at all: the
request handler replaces the stored record wholesale, so a field already
defined on the existing record is erased by a later observation that leaves
it undefined, and the merge is order-dependent for expiry. -/
theorem c1_header_observation_clears_expiry (env : JsEnv)
    (hpi : env.parseIntJs "3600" = some 3600) :
    (mapGet (run env [Event.request "d" "u2" "s=x",
        Event.response "d" "u" ["s=tok; Max-Age=3600"]]) (cookieKey "d" "s")).map
      (fun c => (c.expires, c.maxAge))
      = some (some (env.nowPlusSeconds 3600), some 3600)
    ∧ (mapGet (run env [Event.response "d" "u" ["s=tok; Max-Age=3600"],
        Event.request "d" "u2" "s=x"]) (cookieKey "d" "s")).map
      (fun c => (c.expires, c.maxAge))
      = some (none, none) := by
  constructor
  · have hattrs : parseAttrs env [" Max-Age=3600"] none none
        = some (some (env.nowPlusSeconds 3600), some 3600) := by
      have hd : jsDrop 8 (jsTrim " Max-Age=3600") = "3600" := by decide
      have hc1 : lowerStartsWith "expires=" (jsTrim " Max-Age=3600") = false := by decide
      have hc2 : lowerStartsWith "max-age=" (jsTrim " Max-Age=3600") = true := by decide
      simp [parseAttrs, hc1, hc2, hd, hpi, truthyStr]
    exact onSetCookie_parsed env "d" "u" "s=tok; Max-Age=3600" "s=tok" "s" [" Max-Age=3600"]
      (some (env.nowPlusSeconds 3600)) (some 3600) (onRequest "d" "u2" "s=x" [])
      (by decide) (by decide) (by decide) hattrs
  · show (mapGet (onRequest "d" "u2" "s=x"
        (onSetCookie env "d" "u" "s=tok; Max-Age=3600" [])) (cookieKey "d" "s")).map
      (fun c => (c.expires, c.maxAge)) = some (none, none)
    rw [onRequest_single "d" "u2" "s=x" "s=x"
      (onSetCookie env "d" "u" "s=tok; Max-Age=3600" []) (by decide) (by decide)]
    have hk : cookieKey "d" (segName "s=x") = cookieKey "d" "s" := by decide
    rw [hk, mapGet_mapSet_self]
    rfl

theorem c1_witness :
    (mapGet (run envC [Event.request "d" "u2" "s=x",
        Event.response "d" "u" ["s=tok; Max-Age=3600"]]) (cookieKey "d" "s")).map
      (fun c => (c.expires, c.maxAge))
      = some (some (envC.nowPlusSeconds 3600), some 3600)
    ∧ (mapGet (run envC [Event.response "d" "u" ["s=tok; Max-Age=3600"],
        Event.request "d" "u2" "s=x"]) (cookieKey "d" "s")).map
      (fun c => (c.expires, c.maxAge))
      = some (none, none) :=
  c1_header_observation_clears_expiry envC (by decide)

/-! ## C4 amended: one observation per segment, malformed ones included -/

theorem mapGet_foldl_mapSet_isSome (cs : List Cookie) (st : Store) (k : String)
    (h : (mapGet st k).isSome ∨ k ∈ cs.map (fun c => cookieKey c.domain c.name)) :
    (mapGet (cs.foldl (fun acc c => mapSet acc (cookieKey c.domain c.name) c) st) k).isSome := by
  induction cs generalizing st with
  | nil =>
    rcases h with h | h
    · exact h
    · simp at h
  | cons c rest ih =>
    apply ih
    rcases h with h | h
    · exact Or.inl (mapGet_mapSet_isSome st k (cookieKey c.domain c.name) c h)
    · rw [List.map_cons] at h
      rcases List.mem_cons.mp h with h1 | h1
      · left
        rw [h1, mapGet_mapSet_self]
        rfl
      · right
        exact h1

/-- C4 amended: for a nonempty Cookie header, normalization produces one
observation per semicolon-delimited segment, well-formed or not: every
segment, including those with no '=' (undefined value) and those with an
empty name, leaves an observation in the store under domain|name; nothing
is dropped and no warning is issued, and the handler is still not fatal. -/
theorem c4_one_observation_per_segment (domain url header : String) (store : Store)
    (hne : header ≠ "") :
    ∀ seg ∈ jsSplit ';' header,
      (mapGet (onRequest domain url header store)
        (cookieKey domain (segName seg))).isSome = true := by
  intro seg hseg
  unfold onRequest
  rw [if_neg hne]
  refine mapGet_foldl_mapSet_isSome _ store _ (Or.inr ?_)
  rw [List.map_map]
  exact List.mem_map_of_mem _ hseg

theorem c4_witness :
    (mapGet (onRequest "d" "u" "foo; a=1" []) (cookieKey "d" (segName "foo"))).isSome = true :=
  c4_one_observation_per_segment "d" "u" "foo; a=1" [] (by decide) "foo" (by decide)

/-! ## C8: key uniqueness and totalCookies = number of distinct merged keys -/

/-- The keys of the store, in insertion order. -/
def keys (st : Store) : List String := st.map Prod.fst

theorem keys_nil : keys [] = [] := rfl

theorem keys_cons (p : String × Cookie) (st : Store) : keys (p :: st) = p.1 :: keys st := rfl

/-- The keys a request event merges: one per header segment. -/
def requestKeys (domain header : String) : List String :=
  if header = "" then []
  else (jsSplit ';' header).map (fun seg => cookieKey domain (segName seg))

/-- The key a single Set-Cookie header merges: none when the name is empty
or the attribute loop throws on an invalid date, otherwise domain|name. -/
def setCookieKeys (env : JsEnv) (domain header : String) : List String :=
  let cookieParts := jsSplit ';' header
  let name := (jsSplit '=' (jsTrim (cookieParts.headD ""))).headD ""
  if name = "" then []
  else
    match parseAttrs env (cookieParts.drop 1) none none with
    | none => []
    | some _ => [cookieKey domain name]

/-- All keys one event merges into the store. -/
def eventKeys (env : JsEnv) : Event → List String
  | .request d _ h => requestKeys d h
  | .response d _ hs => (hs.map (setCookieKeys env d)).flatten
  | .snapshot cs => cs.map (fun c => cookieKey c.domain c.name)

theorem keys_mapSet_of_mem (st : Store) (k : String) (v : Cookie)
    (h : k ∈ keys st) : keys (mapSet st k v) = keys st := by
  induction st with
  | nil => simp [keys] at h
  | cons p rest ih =>
    by_cases hp : p.1 = k
    · simp [mapSet, keys_cons, hp]
    · have h' : k ∈ keys rest := by
        rcases List.mem_cons.mp (by simpa [keys_cons] using h) with h1 | h1
        · exact absurd h1.symm hp
        · exact h1
      simp only [mapSet, if_neg hp, keys_cons, ih h']

theorem keys_mapSet_of_not_mem (st : Store) (k : String) (v : Cookie)
    (h : k ∉ keys st) : keys (mapSet st k v) = keys st ++ [k] := by
  induction st with
  | nil => rfl
  | cons p rest ih =>
    have hp : ¬ p.1 = k := fun hh => h (by simp [keys_cons, hh])
    have h' : k ∉ keys rest := fun hh => h (by simp [keys_cons, hh])
    simp only [mapSet, if_neg hp, keys_cons, ih h', List.cons_append]

theorem keys_toFinset_mapSet (st : Store) (k : String) (v : Cookie) :
    (keys (mapSet st k v)).toFinset = insert k (keys st).toFinset := by
  by_cases h : k ∈ keys st
  · rw [keys_mapSet_of_mem st k v h]
    exact (Finset.insert_eq_self.mpr (List.mem_toFinset.mpr h)).symm
  · rw [keys_mapSet_of_not_mem st k v h]
    simp [List.toFinset_append, Finset.insert_eq, Finset.union_comm]

theorem nodup_keys_mapSet (st : Store) (k : String) (v : Cookie)
    (h : (keys st).Nodup) : (keys (mapSet st k v)).Nodup := by
  by_cases hm : k ∈ keys st
  · rw [keys_mapSet_of_mem st k v hm]; exact h
  · rw [keys_mapSet_of_not_mem st k v hm]
    rw [List.nodup_append]
    refine ⟨h, List.nodup_singleton k, ?_⟩
    intro a ha hak
    rw [List.mem_singleton] at hak
    exact hm (hak ▸ ha)

theorem mem_keys_of_mapGet_eq_some (st : Store) (k : String) (r : Cookie)
    (h : mapGet st k = some r) : k ∈ keys st := by
  induction st with
  | nil => simp [mapGet] at h
  | cons p rest ih =>
    by_cases hp : p.1 = k
    · simp [keys_cons, hp.symm]
    · rw [mapGet, if_neg hp] at h
      exact List.mem_cons_of_mem _ (ih h)

theorem union_toFinset_singleton (A : Finset String) (k : String) :
    A ∪ ([k] : List String).toFinset = insert k A := by
  simp [List.toFinset_cons, Finset.insert_eq, Finset.union_comm]

theorem keys_toFinset_onSetCookie (env : JsEnv) (domain url hd : String) (st : Store) :
    (keys (onSetCookie env domain url hd st)).toFinset
      = (keys st).toFinset ∪ (setCookieKeys env domain hd).toFinset := by
  simp only [onSetCookie, setCookieKeys]
  by_cases hz : (jsSplit '=' (jsTrim ((jsSplit ';' hd).headD ""))).headD "" = ""
  · rw [if_pos hz, if_pos hz]
    simp
  · rw [if_neg hz, if_neg hz]
    cases hp : parseAttrs env ((jsSplit ';' hd).drop 1) none none with
    | none => simp
    | some val =>
      obtain ⟨expv, mav⟩ := val
      cases hg : mapGet st (cookieKey domain
          ((jsSplit '=' (jsTrim ((jsSplit ';' hd).headD ""))).headD "")) with
      | some existing => rw [keys_toFinset_mapSet, union_toFinset_singleton]
      | none => rw [keys_toFinset_mapSet, union_toFinset_singleton]

theorem nodup_keys_onSetCookie (env : JsEnv) (domain url hd : String) (st : Store)
    (h : (keys st).Nodup) : (keys (onSetCookie env domain url hd st)).Nodup := by
  simp only [onSetCookie]
  by_cases hz : (jsSplit '=' (jsTrim ((jsSplit ';' hd).headD ""))).headD "" = ""
  · rw [if_pos hz]; exact h
  · rw [if_neg hz]
    cases hp : parseAttrs env ((jsSplit ';' hd).drop 1) none none with
    | none => exact h
    | some val =>
      obtain ⟨expv, mav⟩ := val
      cases hg : mapGet st (cookieKey domain
          ((jsSplit '=' (jsTrim ((jsSplit ';' hd).headD ""))).headD "")) with
      | some existing => exact nodup_keys_mapSet _ _ _ h
      | none => exact nodup_keys_mapSet _ _ _ h

theorem keys_toFinset_mergeSnapshotCookie (env : JsEnv) (st : Store) (c : SnapCookie) :
    (keys (mergeSnapshotCookie env st c)).toFinset
      = insert (cookieKey c.domain c.name) (keys st).toFinset := by
  simp only [mergeSnapshotCookie]
  cases hg : mapGet st (cookieKey c.domain c.name) with
  | none => rw [keys_toFinset_mapSet]
  | some existing =>
    show (keys (if truthyStr existing.expires = true then st
        else mapSet st (cookieKey c.domain c.name) (snapRecord env c))).toFinset
      = insert (cookieKey c.domain c.name) (keys st).toFinset
    by_cases ht : truthyStr existing.expires = true
    · rw [if_pos ht]
      exact (Finset.insert_eq_self.mpr
        (List.mem_toFinset.mpr (mem_keys_of_mapGet_eq_some st _ existing hg))).symm
    · rw [if_neg ht, keys_toFinset_mapSet]

theorem nodup_keys_mergeSnapshotCookie (env : JsEnv) (st : Store) (c : SnapCookie)
    (h : (keys st).Nodup) : (keys (mergeSnapshotCookie env st c)).Nodup := by
  simp only [mergeSnapshotCookie]
  cases hg : mapGet st (cookieKey c.domain c.name) with
  | none => exact nodup_keys_mapSet _ _ _ h
  | some existing =>
    show (keys (if truthyStr existing.expires = true then st
        else mapSet st (cookieKey c.domain c.name) (snapRecord env c))).Nodup
    by_cases ht : truthyStr existing.expires = true
    · rw [if_pos ht]; exact h
    · rw [if_neg ht]; exact nodup_keys_mapSet _ _ _ h

theorem keys_toFinset_foldl_mapSet (cs : List Cookie) (st : Store) :
    (keys (cs.foldl (fun acc c => mapSet acc (cookieKey c.domain c.name) c) st)).toFinset
      = (keys st).toFinset ∪ (cs.map (fun c => cookieKey c.domain c.name)).toFinset := by
  induction cs generalizing st with
  | nil => simp
  | cons c rest ih =>
    simp only [List.foldl_cons, List.map_cons, List.toFinset_cons]
    rw [ih, keys_toFinset_mapSet, Finset.insert_union, Finset.union_insert]

theorem nodup_keys_foldl_mapSet (cs : List Cookie) (st : Store)
    (h : (keys st).Nodup) :
    (keys (cs.foldl (fun acc c => mapSet acc (cookieKey c.domain c.name) c) st)).Nodup := by
  induction cs generalizing st with
  | nil => exact h
  | cons c rest ih => exact ih _ (nodup_keys_mapSet _ _ _ h)

theorem keys_toFinset_foldl_onSetCookie (env : JsEnv) (d u : String)
    (hs : List String) (st : Store) :
    (keys (hs.foldl (fun acc hd => onSetCookie env d u hd acc) st)).toFinset
      = (keys st).toFinset ∪ ((hs.map (setCookieKeys env d)).flatten).toFinset := by
  induction hs generalizing st with
  | nil => simp
  | cons hd rest ih =>
    simp only [List.foldl_cons, List.map_cons, List.flatten_cons, List.toFinset_append]
    rw [ih, keys_toFinset_onSetCookie, Finset.union_assoc]

theorem keys_toFinset_foldl_snapshot (env : JsEnv) (cs : List SnapCookie) (st : Store) :
    (keys (cs.foldl (mergeSnapshotCookie env) st)).toFinset
      = (keys st).toFinset ∪ (cs.map (fun c => cookieKey c.domain c.name)).toFinset := by
  induction cs generalizing st with
  | nil => simp
  | cons c rest ih =>
    simp only [List.foldl_cons, List.map_cons, List.toFinset_cons]
    rw [ih, keys_toFinset_mergeSnapshotCookie, Finset.insert_union, Finset.union_insert]

theorem keys_toFinset_step (env : JsEnv) (st : Store) (e : Event) :
    (keys (step env st e)).toFinset = (keys st).toFinset ∪ (eventKeys env e).toFinset := by
  cases e with
  | request d u h =>
    by_cases hh : h = ""
    · simp [step, onRequest, requestKeys, eventKeys, hh]
    · simp only [step, eventKeys, requestKeys, if_neg hh]
      unfold onRequest
      rw [if_neg hh, keys_toFinset_foldl_mapSet, List.map_map]
      rfl
  | response d u hs => exact keys_toFinset_foldl_onSetCookie env d u hs st
  | snapshot cs => exact keys_toFinset_foldl_snapshot env cs st

theorem nodup_keys_step (env : JsEnv) (st : Store) (e : Event)
    (h : (keys st).Nodup) : (keys (step env st e)).Nodup := by
  cases e with
  | request d u hh =>
    by_cases hz : hh = ""
    · simp only [step, onRequest, if_pos hz]; exact h
    · simp only [step, onRequest, if_neg hz]
      exact nodup_keys_foldl_mapSet _ _ h
  | response d u hs =>
    show (keys (hs.foldl (fun acc hd => onSetCookie env d u hd acc) st)).Nodup
    induction hs generalizing st with
    | nil => exact h
    | cons hd rest ih => exact ih _ (nodup_keys_onSetCookie env d u hd st h)
  | snapshot cs =>
    show (keys (cs.foldl (mergeSnapshotCookie env) st)).Nodup
    induction cs generalizing st with
    | nil => exact h
    | cons c rest ih => exact ih _ (nodup_keys_mergeSnapshotCookie env st c h)

theorem keys_toFinset_foldl_step (env : JsEnv) (events : List Event) (st : Store) :
    (keys (events.foldl (step env) st)).toFinset
      = (keys st).toFinset ∪ ((events.map (eventKeys env)).flatten).toFinset := by
  induction events generalizing st with
  | nil => simp
  | cons e rest ih =>
    simp only [List.foldl_cons, List.map_cons, List.flatten_cons, List.toFinset_append]
    rw [ih, keys_toFinset_step, Finset.union_assoc]

theorem nodup_keys_run (env : JsEnv) (events : List Event) :
    (keys (run env events)).Nodup := by
  have haux : ∀ (evts : List Event) (st : Store), (keys st).Nodup →
      (keys (evts.foldl (step env) st)).Nodup := by
    intro evts
    induction evts with
    | nil => exact fun st h => h
    | cons e rest ih => exact fun st h => ih _ (nodup_keys_step env st e h)
  exact haux events [] List.nodup_nil

/-- C8: at every point of every run the store holds at most one record per
domain|name key (the key list is duplicate-free), and the report's
totalCookies (the length of the store, hence of allCookies) equals the
number of distinct keys ever merged during the run. -/
theorem c8_unique_keys_and_total_count (env : JsEnv) (events : List Event) :
    (keys (run env events)).Nodup
    ∧ (buildReport "u" "t" (run env events)).totalCookies
        = ((events.map (eventKeys env)).flatten).toFinset.card := by
  have hnodup := nodup_keys_run env events
  refine ⟨hnodup, ?_⟩
  have hfin : (keys (run env events)).toFinset
      = ((events.map (eventKeys env)).flatten).toFinset := by
    have := keys_toFinset_foldl_step env events []
    simpa [keys_nil] using this
  have hcard := List.toFinset_card_of_nodup hnodup
  rw [hfin] at hcard
  have hlen : (buildReport "u" "t" (run env events)).totalCookies
      = (keys (run env events)).length := by
    simp [buildReport, keys, List.length_map]
  rw [hlen, ← hcard]

/-! ## C9: the grouped view's sentinel versus the flat view -/

/-- Every entry in every domain bucket of the cookiesByDomain fold satisfies
a property R of the bucket's domain and the entry, provided the accumulator
entries satisfy it and every cookie's projection does. -/
theorem byDomain_entries_sat (R : String → GroupedCookie → Prop)
    (cs : List Cookie) (acc : List (String × List GroupedCookie))
    (hacc : ∀ p ∈ acc, ∀ g ∈ p.2, R p.1 g)
    (hcs : ∀ c ∈ cs, R c.domain (groupEntry c)) :
    ∀ p ∈ cs.foldl addByDomain acc, ∀ g ∈ p.2, R p.1 g := by
  induction cs generalizing acc with
  | nil => exact hacc
  | cons c rest ih =>
    refine ih _ ?_ (fun c' hc' => hcs c' (List.mem_cons_of_mem _ hc'))
    intro p hp g hg
    unfold addByDomain at hp
    by_cases hany : acc.any (fun q => q.1 = c.domain)
    · rw [if_pos hany] at hp
      rcases List.mem_map.mp hp with ⟨q, hq, hpq⟩
      by_cases hqd : q.1 = c.domain
      · rw [if_pos hqd] at hpq
        subst hpq
        rcases List.mem_append.mp hg with hg1 | hg2
        · exact hacc q hq g hg1
        · have hge : g = groupEntry c := by simpa using hg2
          subst hge
          show R q.1 (groupEntry c)
          rw [hqd]
          exact hcs c (List.mem_cons_self c rest)
      · rw [if_neg hqd] at hpq
        subst hpq
        exact hacc q hq g hg
    · rw [if_neg hany] at hp
      rcases List.mem_append.mp hp with hp1 | hp2
      · exact hacc p hp1 g hg
      · have hpe : p = (c.domain, [groupEntry c]) := by simpa using hp2
        subst hpe
        have hge : g = groupEntry c := by simpa using hg
        subst hge
        exact hcs c (List.mem_cons_self c rest)

/-- C9: in the report, every entry of the grouped-by-domain view comes from
a record of the flat view with the same domain, and its expires is the
record's expires string when that is defined (every expires the program
stores is a nonempty ISO string distinct from the sentinel) and the literal
sentinel string when it is undefined; the flat allCookies view is exactly
the store's records, so their expires stays genuinely absent and the
sentinel string never appears there. -/
theorem c9_sentinel_only_in_grouped_view (url date : String) (store : Store)
    (hclean : ∀ c ∈ store.map Prod.snd,
      c.expires ≠ some "" ∧ c.expires ≠ some sessionSentinel) :
    (∀ p ∈ (buildReport url date store).byDomain, ∀ g ∈ p.2,
      ∃ c, c ∈ (buildReport url date store).allCookies ∧ c.domain = p.1
        ∧ g = groupEntry c
        ∧ (∀ e, c.expires = some e → g.expires = e)
        ∧ (c.expires = none → g.expires = sessionSentinel))
    ∧ (buildReport url date store).allCookies = store.map Prod.snd
    ∧ (∀ c ∈ (buildReport url date store).allCookies,
        c.expires ≠ some sessionSentinel) := by
  refine ⟨?_, rfl, fun c hc => (hclean c hc).2⟩
  intro p hp g hg
  have hmem := byDomain_entries_sat
    (fun d g => ∃ c, c ∈ store.map Prod.snd ∧ c.domain = d ∧ g = groupEntry c)
    (store.map Prod.snd) [] (by simp) (fun c hc => ⟨c, hc, rfl, rfl⟩) p hp g hg
  rcases hmem with ⟨c, hc, hcd, hge⟩
  refine ⟨c, hc, hcd, hge, ?_, ?_⟩
  · intro e he
    have hne : e ≠ "" := fun h0 => (hclean c hc).1 (h0 ▸ he)
    rw [hge]
    simp [groupEntry, he, hne]
  · intro he
    rw [hge]
    simp [groupEntry, he]

/-- A record with no expiry, as a header observation leaves it. -/
def cookieC9 : Cookie := parseHeaderCookie "x.com" "u" "a=1"

/-- A one-record store used to exercise c9. -/
def storeC9 : Store := [(cookieKey "x.com" "a", cookieC9)]

theorem c9_witness :
    (∀ p ∈ (buildReport "u" "t" storeC9).byDomain, ∀ g ∈ p.2,
      ∃ c, c ∈ (buildReport "u" "t" storeC9).allCookies ∧ c.domain = p.1
        ∧ g = groupEntry c
        ∧ (∀ e, c.expires = some e → g.expires = e)
        ∧ (c.expires = none → g.expires = sessionSentinel))
    ∧ (buildReport "u" "t" storeC9).allCookies = storeC9.map Prod.snd
    ∧ (∀ c ∈ (buildReport "u" "t" storeC9).allCookies,
        c.expires ≠ some sessionSentinel) :=
  c9_sentinel_only_in_grouped_view "u" "t" storeC9 (by decide)

end NfMirror
